import Mathlib

/-!
Verification of the BLE gateway core (ble_gateway.py): the advertisement
re-encoding logic (`BLEMessage`), the flush/throttle buffer (`MessageBuffer`),
the whitelist filter (`PayloadFilter`) and the startup configuration checks
(`load_config`), shallowly embedded in Lean.

Modelling conventions:
* Python `bytes` become `List Nat` with every element below 256 (all byte
  values produced by the model stay below 256 by construction).
* Python `dict` values become association lists in insertion order, the order
  a Python `dict` iterates in; updating an existing key keeps its position.
* Python `float` timestamps and intervals become `ℚ` (exact, totally ordered,
  mirroring IEEE doubles on the magnitudes the gateway handles).
* Fallible operations (`bytes.fromhex` on malformed hex, `bytearray.append`
  of a value outside 0..255) become `Option`-valued functions returning
  `none` where Python raises.
-/

namespace BLEGW

/-- Structured BLE advertisement message (dataclass `BLEMessage`).
`manufacturer_data` and `service_data` are Python dicts, kept here as
association lists in insertion order. -/
structure BLEMessage where
  timestamp_ms : Nat
  device_address : String
  device_name : Option String
  rssi : Int
  manufacturer_data : List (Nat × List Nat)
  service_data : List (String × List Nat)
  service_uuids : List String
  tx_power : Option Int
deriving Repr, DecidableEq

/-- Lower-case hex digit for a value below 16 (as produced by `bytes.hex`). -/
def hexDigitLower (n : Nat) : Char :=
  if n < 10 then Char.ofNat (48 + n) else Char.ofNat (87 + n)

/-- One byte as two lower-case hex characters. -/
def byteToHexLower (b : Nat) : String :=
  String.mk [hexDigitLower (b / 16), hexDigitLower (b % 16)]

/-- Model of Python `bytes.hex`: lower-case hex encoding of a byte string. -/
def bytesToHexLower (bs : List Nat) : String :=
  String.join (bs.map byteToHexLower)

/-- Model of Python `str.upper` on the ASCII strings the gateway handles. -/
def strUpper (s : String) : String :=
  String.mk (s.data.map Char.toUpper)

/-- Model of Python `s.replace('-', '')`. -/
def stripHyphens (s : String) : String :=
  String.mk (s.data.filter (fun c => c ≠ '-'))

/-- Model of Python `s.replace(':', '')`. -/
def stripColons (s : String) : String :=
  String.mk (s.data.filter (fun c => c ≠ ':'))

/-- Value of a single hex digit character, as accepted by `bytes.fromhex`. -/
def hexDigitVal (c : Char) : Option Nat :=
  if '0' ≤ c ∧ c ≤ '9' then some (c.toNat - 48)
  else if 'a' ≤ c ∧ c ≤ 'f' then some (c.toNat - 97 + 10)
  else if 'A' ≤ c ∧ c ≤ 'F' then some (c.toNat - 65 + 10)
  else none

/-- Pairs of hex digits to bytes; `none` on an odd count or a non-hex digit. -/
def hexPairsToBytes : List Char → Option (List Nat)
  | [] => some []
  | [_] => none
  | c1 :: c2 :: rest => do
      let h ← hexDigitVal c1
      let l ← hexDigitVal c2
      let tail ← hexPairsToBytes rest
      pure ((16 * h + l) :: tail)

/-- Model of Python `bytes.fromhex` on strings of contiguous hex digits
(the gateway only feeds it hyphen-stripped UUID strings). -/
def bytesFromHex (s : String) : Option (List Nat) :=
  hexPairsToBytes s.data

/-- One record of the reconstructed blob for a `service_uuids` entry:
hyphen-stripped hex string to bytes, reversed to little-endian, framed with
the hard-coded length byte 17 and type byte 0x06 (lines 110-121). -/
def serviceUuidRecord (uuid_str : String) : Option (List Nat) := do
  let uuid_bytes ← bytesFromHex (stripHyphens uuid_str)
  pure (17 :: 0x06 :: uuid_bytes.reverse)

/-- One record for a `manufacturer_data` entry: length byte `1 + 2 + len(data)`
(`bytearray.append` fails when it exceeds 255), type byte 0xFF, company id in
little-endian, then the data verbatim (lines 124-132). -/
def manufacturerRecord (company_id : Nat) (data : List Nat) : Option (List Nat) :=
  if 1 + 2 + data.length < 256 then
    some ((1 + 2 + data.length) :: 0xFF :: (company_id % 256) :: (company_id / 256 % 256) :: data)
  else none

/-- One record for a `service_data` entry: length byte
`1 + len(uuid bytes) + len(data)`, type byte 0x16, UUID bytes reversed to
little-endian, then the data verbatim (lines 135-144). -/
def serviceDataRecord (uuid_str : String) (data : List Nat) : Option (List Nat) := do
  let uuid_bytes ← bytesFromHex (stripHyphens uuid_str)
  if 1 + uuid_bytes.length + data.length < 256 then
    pure ((1 + uuid_bytes.length + data.length) :: 0x16 :: (uuid_bytes.reverse ++ data))
  else none

/-- Concatenate the records produced for each list entry, failing as soon as
one entry fails (the Python loop raises at the offending entry). -/
def optConcatMap {α : Type} (f : α → Option (List Nat)) : List α → Option (List Nat)
  | [] => some []
  | x :: xs => do
      let r ← f x
      let rest ← optConcatMap f xs
      pure (r ++ rest)

/-- `BLEMessage._reconstruct_advertising_data` (lines 102-146): service-UUID
records, then manufacturer-data records, then service-data records, each map
iterated in insertion order, concatenated with no terminator. -/
def reconstruct_advertising_data (m : BLEMessage) : Option (List Nat) := do
  let p1 ← optConcatMap serviceUuidRecord m.service_uuids
  let p2 ← optConcatMap (fun kv => manufacturerRecord kv.1 kv.2) m.manufacturer_data
  let p3 ← optConcatMap (fun kv => serviceDataRecord kv.1 kv.2) m.service_data
  pure (p1 ++ p2 ++ p3)

/-- Three-digit zero-padded decimal (the fractional part of `%.3f`). -/
def pad3 (n : Nat) : String :=
  if n < 10 then "00" ++ toString n
  else if n < 100 then "0" ++ toString n
  else toString n

/-- Model of `f"{timestamp_ms / 1000.0:.3f}"` for epoch-millisecond
timestamps: seconds with exactly three fractional digits.  Exact on the
timestamp magnitudes the gateway produces (the double quotient of an epoch
millisecond count rounds to the same three decimals). -/
def formatTimestampSec (ms : Nat) : String :=
  toString (ms / 1000) ++ "." ++ pad3 (ms % 1000)

/-- Four lower-case hex digits, as in a JSON `\uXXXX` escape. -/
def toHex4 (n : Nat) : String :=
  String.mk [hexDigitLower (n / 4096 % 16), hexDigitLower (n / 256 % 16),
             hexDigitLower (n / 16 % 16), hexDigitLower (n % 16)]

/-- Escape of one character under Python `json.dumps` (default
`ensure_ascii=True`): short escapes for the usual control characters, and a
`\uXXXX` escape (surrogate pairs beyond the BMP) for every character outside
the printable ASCII range 0x20..0x7e. -/
def jsonEscapeChar (c : Char) : String :=
  if c = '"' then "\\\""
  else if c = '\\' then "\\\\"
  else if c.toNat = 10 then "\\n"
  else if c.toNat = 9 then "\\t"
  else if c.toNat = 13 then "\\r"
  else if c.toNat = 8 then "\\b"
  else if c.toNat = 12 then "\\f"
  else if c.toNat < 0x20 ∨ 0x7e < c.toNat then
    if c.toNat < 0x10000 then "\\u" ++ toHex4 c.toNat
    else
      "\\u" ++ toHex4 (0xd800 + (c.toNat - 0x10000) / 0x400) ++
      "\\u" ++ toHex4 (0xdc00 + (c.toNat - 0x10000) % 0x400)
  else String.mk [c]

/-- A JSON string literal as `json.dumps` renders it. -/
def jsonString (s : String) : String :=
  "\"" ++ String.join (s.data.map jsonEscapeChar) ++ "\""

/-- `BLEMessage.to_gprp_format` (lines 148-176): the `$GPRP` CSV line wrapped
in the compact two-key JSON envelope.  `none` when the advertising-data
reconstruction fails. -/
def to_gprp_format (m : BLEMessage) (gateway_mac : String) (topic : String) : Option String := do
  let packet ← reconstruct_advertising_data m
  let advertising_hex := strUpper (bytesToHexLower packet)
  let device_mac := strUpper (stripColons m.device_address)
  let gprp_line := "$GPRP," ++ gateway_mac ++ "," ++ device_mac ++ "," ++
    toString m.rssi ++ "," ++ advertising_hex ++ "," ++ formatTimestampSec m.timestamp_ms
  pure ("\x7b\"data\":[" ++ jsonString gprp_line ++ "],\"mqtt_topic\":" ++
    jsonString topic ++ "\x7d")

/-- `BLEMessage.to_json` (lines 178-188): `asdict` keeps the dataclass field
order, byte values are re-rendered as lower-case hex, manufacturer-data keys
as decimal strings, and `json.dumps(..., separators=(',', ':'))` renders the
resulting dict compactly in insertion order. -/
def to_json (m : BLEMessage) : String :=
  "\x7b\"timestamp_ms\":" ++ toString m.timestamp_ms ++
  ",\"device_address\":" ++ jsonString m.device_address ++
  ",\"device_name\":" ++ (match m.device_name with
    | none => "null"
    | some n => jsonString n) ++
  ",\"rssi\":" ++ toString m.rssi ++
  ",\"manufacturer_data\":\x7b" ++
    String.intercalate ","
      (m.manufacturer_data.map
        (fun kv => jsonString (toString kv.1) ++ ":" ++ jsonString (bytesToHexLower kv.2))) ++
  "\x7d,\"service_data\":\x7b" ++
    String.intercalate ","
      (m.service_data.map
        (fun kv => jsonString kv.1 ++ ":" ++ jsonString (bytesToHexLower kv.2))) ++
  "\x7d,\"service_uuids\":[" ++
    String.intercalate "," (m.service_uuids.map jsonString) ++
  "],\"tx_power\":" ++ (match m.tx_power with
    | none => "null"
    | some p => toString p) ++ "\x7d"

/-- The buffer store: a dict keyed by device address (throttled-windowed
mode) or a plain list (every other mode). -/
inductive BufferStore
  | dict (entries : List (String × BLEMessage))
  | list (msgs : List BLEMessage)
deriving Repr, DecidableEq

/-- `MessageBuffer` state (lines 191-271). `last_flush_time` and the
interval are rationals standing in for `time.time()` floats. -/
structure MessageBuffer where
  publish_interval_sec : ℚ
  max_buffer_size : Nat
  throttle_control : Bool
  buffer : BufferStore
  last_flush_time : ℚ
deriving Repr, DecidableEq

/-- `MessageBuffer.__init__` (lines 207-226): a dict store exactly when
throttling is on and the interval is positive, else a list store;
`last_flush_time` is the construction time. -/
def MessageBuffer.init (publish_interval_sec : ℚ) (max_buffer_size : Nat)
    (throttle_control : Bool) (now : ℚ) : MessageBuffer :=
  { publish_interval_sec := publish_interval_sec
    max_buffer_size := max_buffer_size
    throttle_control := throttle_control
    buffer := if throttle_control = true ∧ 0 < publish_interval_sec then
        BufferStore.dict [] else BufferStore.list []
    last_flush_time := now }

/-- Python `d[k] = v` on an insertion-ordered dict: an existing key keeps its
position and gets the new value; a new key is appended. -/
def dictInsert (entries : List (String × BLEMessage)) (k : String) (v : BLEMessage) :
    List (String × BLEMessage) :=
  if entries.any (fun kv => kv.1 = k) then
    entries.map (fun kv => if kv.1 = k then (k, v) else kv)
  else entries ++ [(k, v)]

/-- `MessageBuffer.add_message` (lines 228-235).  The store mismatch arms are
unreachable for buffers built by `MessageBuffer.init`, since the mode test is
the construction-time test over immutable fields. -/
def MessageBuffer.add_message (b : MessageBuffer) (m : BLEMessage) : MessageBuffer :=
  if b.throttle_control = true ∧ 0 < b.publish_interval_sec then
    match b.buffer with
    | BufferStore.dict es =>
        { b with buffer := BufferStore.dict (dictInsert es m.device_address m) }
    | BufferStore.list ms => { b with buffer := BufferStore.list (ms ++ [m]) }
  else
    match b.buffer with
    | BufferStore.dict es => { b with buffer := BufferStore.dict es }
    | BufferStore.list ms => { b with buffer := BufferStore.list (ms ++ [m]) }

/-- `MessageBuffer.size` (lines 269-271): `len` of the store. -/
def MessageBuffer.size (b : MessageBuffer) : Nat :=
  match b.buffer with
  | BufferStore.dict es => es.length
  | BufferStore.list ms => ms.length

/-- `MessageBuffer.should_flush` (lines 237-253), with the current
`time.time()` passed explicitly. -/
def MessageBuffer.should_flush (b : MessageBuffer) (now : ℚ) : Bool :=
  if b.publish_interval_sec = 0 then decide (0 < b.size)
  else if b.max_buffer_size ≤ b.size then true
  else if b.publish_interval_sec ≤ now - b.last_flush_time then decide (0 < b.size)
  else false

/-- `MessageBuffer.get_messages` (lines 255-267): drain the store (dict
values in insertion order, or the list itself), reset the store to empty and
`last_flush_time` to now.  Returns the drained messages and the new state. -/
def MessageBuffer.get_messages (b : MessageBuffer) (now : ℚ) :
    List BLEMessage × MessageBuffer :=
  if b.throttle_control = true ∧ 0 < b.publish_interval_sec then
    match b.buffer with
    | BufferStore.dict es =>
        (es.map Prod.snd, { b with buffer := BufferStore.dict [], last_flush_time := now })
    | BufferStore.list ms =>
        (ms, { b with buffer := BufferStore.list [], last_flush_time := now })
  else
    match b.buffer with
    | BufferStore.dict es =>
        (es.map Prod.snd, { b with buffer := BufferStore.dict [], last_flush_time := now })
    | BufferStore.list ms =>
        (ms, { b with buffer := BufferStore.list [], last_flush_time := now })

/-- The shutdown flush in `BluetoothGateway.run` (lines 903-912): one
unconditional `get_messages` (no `should_flush` consultation), each drained
message rendered with `to_json`, in order, for publishing. -/
def shutdown_flush (b : MessageBuffer) (now : ℚ) : List String × MessageBuffer :=
  ((b.get_messages now).1.map to_json, (b.get_messages now).2)

/-- BLE device identity as seen by the filter (bleak `BLEDevice`). -/
structure BLEDevice where
  address : String
  name : Option String
deriving Repr, DecidableEq

/-- Advertisement payload as seen by the filter (bleak `AdvertisementData`);
the two maps are insertion-ordered association lists. -/
structure AdvertisementData where
  manufacturer_data : List (Nat × List Nat)
  service_data : List (String × List Nat)
  service_uuids : List String
deriving Repr, DecidableEq

/-- `PayloadFilter` (lines 274-292): four optional whitelists. -/
structure PayloadFilter where
  mac_whitelist : Option (List String)
  name_whitelist : Option (List String)
  manufacturer_id_whitelist : Option (List Nat)
  service_uuid_whitelist : Option (List String)
deriving Repr, DecidableEq

/-- Python truthiness of an `Optional[Set]` attribute: `None` and the empty
set are falsy. -/
def setTruthy {α : Type} : Option (List α) → Bool
  | none => false
  | some l => !l.isEmpty

/-- Python truthiness of `device.name`: `None` and the empty string are
falsy. -/
def nameTruthy : Option String → Bool
  | none => false
  | some n => decide (n ≠ "")

/-- `PayloadFilter.should_accept` (lines 294-329): accept everything when no
truthy whitelist is configured, otherwise accept on the first matching
criterion (upper-cased address membership; truthy name membership; any
manufacturer-data key in the id whitelist; any advertised service UUID in
the UUID whitelist), else reject. -/
def PayloadFilter.should_accept (f : PayloadFilter) (device : BLEDevice)
    (adv : AdvertisementData) : Bool :=
  if setTruthy f.mac_whitelist = false ∧ setTruthy f.name_whitelist = false ∧
      setTruthy f.manufacturer_id_whitelist = false ∧
      setTruthy f.service_uuid_whitelist = false then true
  else if setTruthy f.mac_whitelist = true ∧
      strUpper device.address ∈ f.mac_whitelist.getD [] then true
  else if setTruthy f.name_whitelist = true ∧ nameTruthy device.name = true ∧
      device.name.getD "" ∈ f.name_whitelist.getD [] then true
  else if setTruthy f.manufacturer_id_whitelist = true ∧ adv.manufacturer_data ≠ [] ∧
      ∃ kv ∈ adv.manufacturer_data, kv.1 ∈ f.manufacturer_id_whitelist.getD [] then true
  else if setTruthy f.service_uuid_whitelist = true ∧ adv.service_uuids ≠ [] ∧
      ∃ u ∈ adv.service_uuids, u ∈ f.service_uuid_whitelist.getD [] then true
  else false

/-- A scalar Python value as produced by `json.load` (the kinds the policy
checks can meet): JSON numbers become `int` or `float`, and `bool` is (as in
Python) its own type even though `isinstance(True, int)` holds. -/
inductive PyValue
  | int (n : Int)
  | float (q : ℚ)
  | bool (b : Bool)
  | str (s : String)
  | none
deriving Repr, DecidableEq

/-- Dict lookup `config.get(key)` over an association list. -/
def pyGet (config : List (String × PyValue)) (k : String) : Option PyValue :=
  (config.find? (fun kv => kv.1 = k)).map Prod.snd

/-- `isinstance(v, (int, float))`: Python booleans are `int` instances. -/
def isNumericPy : PyValue → Bool
  | PyValue.int _ => true
  | PyValue.float _ => true
  | PyValue.bool _ => true
  | _ => false

/-- `isinstance(v, int)`: again satisfied by booleans. -/
def isIntPy : PyValue → Bool
  | PyValue.int _ => true
  | PyValue.bool _ => true
  | _ => false

/-- `isinstance(v, bool)`. -/
def isBoolPy : PyValue → Bool
  | PyValue.bool _ => true
  | _ => false

/-- Numeric value of an `int`/`float`/`bool` (True compares as 1, False
as 0); irrelevant default for other constructors, which the checks reject
before comparing. -/
def numValPy : PyValue → ℚ
  | PyValue.int n => (n : ℚ)
  | PyValue.float q => q
  | PyValue.bool b => if b then 1 else 0
  | _ => 0

/-- The `publish_interval_sec` validation of `load_config` (lines 932-937):
skipped when the key is absent, `ValueError` unless
`isinstance(v, (int, float))` and `v ≥ 0`. -/
def check_interval (config : List (String × PyValue)) : Except String Unit :=
  match pyGet config "publish_interval_sec" with
  | some v =>
      if isNumericPy v = false ∨ numValPy v < 0 then
        Except.error "publish_interval_sec must be a non-negative number"
      else Except.ok ()
  | none => Except.ok ()

/-- The `max_buffer_size` validation of `load_config` (lines 939-944):
skipped when the key is absent, `ValueError` unless `isinstance(v, int)` and
`v ≥ 1`. -/
def check_size (config : List (String × PyValue)) : Except String Unit :=
  match pyGet config "max_buffer_size" with
  | some v =>
      if isIntPy v = false ∨ numValPy v < 1 then
        Except.error "max_buffer_size must be a positive integer"
      else Except.ok ()
  | none => Except.ok ()

/-- The `throttle_control` validation of `load_config` (lines 946-950):
skipped when the key is absent, `ValueError` unless `isinstance(v, bool)`. -/
def check_throttle (config : List (String × PyValue)) : Except String Unit :=
  match pyGet config "throttle_control" with
  | some v =>
      if isBoolPy v = false then
        Except.error "throttle_control must be a boolean"
      else Except.ok ()
  | none => Except.ok ()

/-- The policy-value checks of `load_config` (lines 931-950) in source
order; the first failing check raises.  The rest of `load_config` (file
access and the mqtt-section checks, lines 952-973) is independent of these
and not needed here. -/
def policy_value_checks (config : List (String × PyValue)) : Except String Unit := do
  check_interval config
  check_size config
  check_throttle config

/-- The fixed event of the spec's CSV-envelope test vector. -/
def fixedEvent : BLEMessage :=
  { timestamp_ms := 1700000000000
    device_address := "AA:BB:CC:DD:EE:FF"
    device_name := none
    rssi := -67
    manufacturer_data := []
    service_data := []
    service_uuids := []
    tx_power := none }

/-- Bytes of a (hyphen-stripped) UUID string, empty when it is not hex. -/
def uuidBytesOf (u : String) : List Nat :=
  (bytesFromHex (stripHyphens u)).getD []

/-- The record the spec describes for a service-UUID entry. -/
def svcRecordSpec (u : String) : List Nat :=
  17 :: 0x06 :: (uuidBytesOf u).reverse

/-- The record the spec describes for a vendor-data entry. -/
def vendorRecordSpec (kv : Nat × List Nat) : List Nat :=
  (3 + kv.2.length) :: 0xFF :: (kv.1 % 256) :: (kv.1 / 256 % 256) :: kv.2

/-- The record the spec describes for a service-data entry. -/
def svcDataRecordSpec (kv : String × List Nat) : List Nat :=
  (1 + (uuidBytesOf kv.1).length + kv.2.length) :: 0x16 :: ((uuidBytesOf kv.1).reverse ++ kv.2)

theorem optConcatMap_eq_join {α : Type} (f : α → Option (List Nat)) (g : α → List Nat)
    (l : List α) (h : ∀ x ∈ l, f x = some (g x)) :
    optConcatMap f l = some (l.map g).flatten := by
  induction l with
  | nil => rfl
  | cons x xs ih =>
      have hx := h x (by simp)
      have ihx := ih (fun y hy => h y (by simp [hy]))
      simp [optConcatMap, hx, ihx]

/-- C1: `to_gprp_format` wraps, in the compact two-key JSON envelope, the
single line `$GPRP,<gateway-id>,<device-id>,<rssi>,<hex-blob>,<seconds>` with
the device id colon-stripped and upper-cased, the hex blob upper-cased, and
the timestamp as seconds with exactly three fractional digits; on the fixed
event (timestamp 1700000000000, address AA:BB:CC:DD:EE:FF, rssi -67, no
payload data) with gateway id A1B2C3D4E5F6 the envelope is the literal
string with device id AABBCCDDEEFF, timestamp 1700000000.000 and an empty
hex blob. -/
theorem gprp_envelope_format :
    (∀ (m : BLEMessage) (gateway_mac topic : String) (packet : List Nat),
      reconstruct_advertising_data m = some packet →
      to_gprp_format m gateway_mac topic =
        some ("\x7b\"data\":[" ++
          jsonString ("$GPRP," ++ gateway_mac ++ "," ++
            strUpper (stripColons m.device_address) ++ "," ++ toString m.rssi ++ "," ++
            strUpper (bytesToHexLower packet) ++ "," ++ formatTimestampSec m.timestamp_ms) ++
          "],\"mqtt_topic\":" ++ jsonString topic ++ "\x7d")) ∧
    to_gprp_format fixedEvent "A1B2C3D4E5F6" "ble/gateway/data" =
      some "\x7b\"data\":[\"$GPRP,A1B2C3D4E5F6,AABBCCDDEEFF,-67,,1700000000.000\"],\"mqtt_topic\":\"ble/gateway/data\"\x7d" := by
  constructor
  · intro m gateway_mac topic packet h
    unfold to_gprp_format
    rw [h]
    rfl
  · rfl

/-- Witness for C1 at the fixed event (empty reconstruction). -/
theorem gprp_envelope_format_witness :
    to_gprp_format fixedEvent "A1B2C3D4E5F6" "ble/gateway/data" =
      some ("\x7b\"data\":[" ++
        jsonString ("$GPRP," ++ "A1B2C3D4E5F6" ++ "," ++
          strUpper (stripColons fixedEvent.device_address) ++ "," ++
          toString fixedEvent.rssi ++ "," ++ strUpper (bytesToHexLower []) ++ "," ++
          formatTimestampSec fixedEvent.timestamp_ms) ++
        "],\"mqtt_topic\":" ++ jsonString "ble/gateway/data" ++ "\x7d") :=
  gprp_envelope_format.1 fixedEvent "A1B2C3D4E5F6" "ble/gateway/data" [] rfl

/-- C2: for events whose service ids are 128-bit UUIDs (and whose records
all fit the one-byte length framing), the reconstruction is the
concatenation, with no terminator, of the service-UUID records (length 17,
type 0x06, UUID bytes reversed), then the vendor-data records (length
3+len(data), type 0xFF, little-endian vendor id then data), then the
service-data records (length 1+len(uuid bytes)+len(data), type 0x16,
reversed UUID bytes then data). -/
theorem reconstruction_record_structure (m : BLEMessage)
    (hsvc : ∀ u ∈ m.service_uuids,
      ∃ bs, bytesFromHex (stripHyphens u) = some bs ∧ bs.length = 16)
    (hven : ∀ kv ∈ m.manufacturer_data, kv.2.length ≤ 252)
    (hsd : ∀ kv ∈ m.service_data,
      ∃ bs, bytesFromHex (stripHyphens kv.1) = some bs ∧
        1 + bs.length + kv.2.length ≤ 255) :
    reconstruct_advertising_data m =
      some ((m.service_uuids.map svcRecordSpec).flatten ++
            (m.manufacturer_data.map vendorRecordSpec).flatten ++
            (m.service_data.map svcDataRecordSpec).flatten) := by
  have h1 : optConcatMap serviceUuidRecord m.service_uuids =
      some (m.service_uuids.map svcRecordSpec).flatten := by
    apply optConcatMap_eq_join
    intro u hu
    obtain ⟨bs, hbs, _⟩ := hsvc u hu
    simp [serviceUuidRecord, svcRecordSpec, uuidBytesOf, hbs]
  have h2 : optConcatMap (fun kv => manufacturerRecord kv.1 kv.2) m.manufacturer_data =
      some (m.manufacturer_data.map vendorRecordSpec).flatten := by
    apply optConcatMap_eq_join
    intro kv hkv
    have := hven kv hkv
    simp only [manufacturerRecord, vendorRecordSpec]
    rw [if_pos (by omega)]
  have h3 : optConcatMap (fun kv => serviceDataRecord kv.1 kv.2) m.service_data =
      some (m.service_data.map svcDataRecordSpec).flatten := by
    apply optConcatMap_eq_join
    intro kv hkv
    obtain ⟨bs, hbs, hlen⟩ := hsd kv hkv
    simp only [serviceDataRecord, svcDataRecordSpec, uuidBytesOf, hbs, Option.getD_some,
      Option.bind_eq_bind, Option.some_bind]
    rw [if_pos (by omega)]
    rfl
  unfold reconstruct_advertising_data
  rw [h1, h2, h3]
  rfl

/-- The three-record event of the spec's framing round-trip test: one
128-bit service id, a 4-byte vendor entry, a 2-byte service-data entry on a
16-bit UUID. -/
def trioEvent : BLEMessage :=
  { timestamp_ms := 1700000000000
    device_address := "AA:BB:CC:DD:EE:FF"
    device_name := none
    rssi := -55
    manufacturer_data := [(0x004C, [1, 2, 3, 4])]
    service_data := [("180f", [9, 8])]
    service_uuids := ["12345678-1234-5678-1234-567812345678"]
    tx_power := none }

/-- Witness for C2: the trio event's blob is exactly three records whose
length bytes are 17, 7 and (uuid byte count)+3 in that order. -/
theorem reconstruction_record_structure_witness :
    reconstruct_advertising_data trioEvent =
      some ((trioEvent.service_uuids.map svcRecordSpec).flatten ++
            (trioEvent.manufacturer_data.map vendorRecordSpec).flatten ++
            (trioEvent.service_data.map svcDataRecordSpec).flatten) ∧
    (trioEvent.service_uuids.map svcRecordSpec).flatten.length = 18 ∧
    (trioEvent.service_uuids.map svcRecordSpec).flatten.head? = some 17 ∧
    (trioEvent.manufacturer_data.map vendorRecordSpec).flatten.head? = some 7 ∧
    (trioEvent.service_data.map svcDataRecordSpec).flatten.head? =
      some ((uuidBytesOf "180f").length + 3) := by
  refine ⟨?_, by decide, by decide, by decide, by decide⟩
  exact reconstruction_record_structure trioEvent (by decide) (by decide) (by decide)

/-- Insertion step of an insertion sort, stable for equal keys. -/
def insertByKey {α : Type} (le : α → α → Bool) (x : α) : List α → List α
  | [] => [x]
  | y :: ys => if le x y then x :: y :: ys else y :: insertByKey le x ys

/-- Insertion sort by a boolean comparison. -/
def sortByKey {α : Type} (le : α → α → Bool) : List α → List α
  | [] => []
  | x :: xs => insertByKey le x (sortByKey le xs)

/-- Ascending numeric vendor-id order. -/
def vendorLe (a b : Nat × List Nat) : Bool :=
  decide (a.1 ≤ b.1)

/-- Lexicographic comparison of character lists. -/
def charListLe : List Char → List Char → Bool
  | [], _ => true
  | _ :: _, [] => false
  | c :: cs, d :: ds =>
      if c.toNat < d.toNat then true
      else if d.toNat < c.toNat then false
      else charListLe cs ds

/-- Ascending lexicographic service-data UUID order. -/
def svcDataLe (a b : String × List Nat) : Bool :=
  charListLe a.1.data b.1.data

/-- Modelled from the spec's canonicalization clause: reconstruct after
sorting the vendor-data entries by ascending numeric key and the
service-data entries by ascending lexicographic key. -/
def reconstruct_canonical (m : BLEMessage) : Option (List Nat) :=
  reconstruct_advertising_data
    { m with manufacturer_data := sortByKey vendorLe m.manufacturer_data
             service_data := sortByKey svcDataLe m.service_data }

/-- Two vendor entries inserted in descending key order. -/
def unsortedVendorEvent : BLEMessage :=
  { timestamp_ms := 0
    device_address := "AA:BB:CC:DD:EE:FF"
    device_name := none
    rssi := -10
    manufacturer_data := [(2, [170]), (1, [187])]
    service_data := []
    service_uuids := []
    tx_power := none }

/-- Counterexample to C3: with vendor ids inserted as 2 then 1, the code
emits the id-2 record first (insertion order), not the ascending-key order
the claim states, so the blob differs from the canonical ascending
rendering. -/
theorem vendor_order_counterexample :
    reconstruct_advertising_data unsortedVendorEvent =
      some [4, 255, 2, 0, 170, 4, 255, 1, 0, 187] ∧
    reconstruct_canonical unsortedVendorEvent =
      some [4, 255, 1, 0, 187, 4, 255, 2, 0, 170] ∧
    reconstruct_advertising_data unsortedVendorEvent ≠
      reconstruct_canonical unsortedVendorEvent := by
  refine ⟨rfl, rfl, ?_⟩
  decide

theorem sortByKey_of_chain {α : Type} (le : α → α → Bool) :
    ∀ l : List α, List.Chain' (fun a b => le a b = true) l → sortByKey le l = l
  | [], _ => rfl
  | [x], _ => rfl
  | x :: y :: ys, h => by
      have hxy : le x y = true := (List.chain'_cons.mp h).1
      have ih := sortByKey_of_chain le (y :: ys) (List.chain'_cons.mp h).2
      rw [show sortByKey le (x :: y :: ys) = insertByKey le x (sortByKey le (y :: ys)) from rfl,
        ih]
      simp [insertByKey, hxy]

/-- C3 (amended): the reconstruction emits vendor-data and service-data
records in the iteration (insertion) order of the underlying maps; when the
maps are already in ascending key order the blob therefore coincides with
the canonical ascending rendering. -/
theorem vendor_order_insertion_amended (m : BLEMessage)
    (hv : List.Chain' (fun a b => vendorLe a b = true) m.manufacturer_data)
    (hs : List.Chain' (fun a b => svcDataLe a b = true) m.service_data) :
    reconstruct_advertising_data m = reconstruct_canonical m := by
  unfold reconstruct_canonical
  rw [sortByKey_of_chain vendorLe m.manufacturer_data hv,
      sortByKey_of_chain svcDataLe m.service_data hs]

/-- Witness for the amended C3 at a concretely sorted event. -/
theorem vendor_order_insertion_amended_witness :
    reconstruct_advertising_data
      { timestamp_ms := 0
        device_address := "AA:BB:CC:DD:EE:FF"
        device_name := none
        rssi := -10
        manufacturer_data := [(1, [187]), (2, [170])]
        service_data := [("180f", [1]), ("2a19", [2])]
        service_uuids := []
        tx_power := none } =
    reconstruct_canonical
      { timestamp_ms := 0
        device_address := "AA:BB:CC:DD:EE:FF"
        device_name := none
        rssi := -10
        manufacturer_data := [(1, [187]), (2, [170])]
        service_data := [("180f", [1]), ("2a19", [2])]
        service_uuids := []
        tx_power := none } :=
  vendor_order_insertion_amended _
    (List.chain'_cons.mpr ⟨by decide, List.chain'_singleton _⟩)
    (List.chain'_cons.mpr ⟨by decide, List.chain'_singleton _⟩)

theorem dictInsert_keys_of_any (k : String) (v : BLEMessage)
    (es : List (String × BLEMessage))
    (h : es.any (fun kv => decide (kv.1 = k)) = true) :
    (dictInsert es k v).map Prod.fst = es.map Prod.fst := by
  unfold dictInsert
  rw [if_pos h, List.map_map]
  apply List.map_congr_left
  intro kv hkv
  by_cases hk : kv.1 = k
  · simp [hk]
  · simp [hk]

theorem dictInsert_keys_of_not_any (k : String) (v : BLEMessage)
    (es : List (String × BLEMessage))
    (h : ¬ es.any (fun kv => decide (kv.1 = k)) = true) :
    (dictInsert es k v).map Prod.fst = es.map Prod.fst ++ [k] := by
  unfold dictInsert
  rw [if_neg h]
  simp

theorem dictInsert_keys_nodup (k : String) (v : BLEMessage)
    (es : List (String × BLEMessage)) (h : (es.map Prod.fst).Nodup) :
    ((dictInsert es k v).map Prod.fst).Nodup := by
  by_cases hany : es.any (fun kv => decide (kv.1 = k)) = true
  · rw [dictInsert_keys_of_any k v es hany]
    exact h
  · rw [dictInsert_keys_of_not_any k v es hany]
    have hnk : k ∉ es.map Prod.fst := by
      intro hmem
      apply hany
      rw [List.any_eq_true]
      obtain ⟨kv, hkv, he⟩ := List.mem_map.mp hmem
      exact ⟨kv, hkv, by simp [he]⟩
    simp [List.nodup_append, h, hnk]

theorem dictInsert_filter_key (k : String) (v : BLEMessage) :
    ∀ es : List (String × BLEMessage), (es.map Prod.fst).Nodup →
      (dictInsert es k v).filter (fun kv => decide (kv.1 = k)) = [(k, v)] := by
  intro es
  induction es with
  | nil =>
      intro _
      simp [dictInsert]
  | cons hd tl ih =>
      intro hnodup
      have hnodup' : (hd.1 :: tl.map Prod.fst).Nodup := by simpa using hnodup
      have hhd : hd.1 ∉ tl.map Prod.fst := (List.nodup_cons.mp hnodup').1
      have htl : (tl.map Prod.fst).Nodup := (List.nodup_cons.mp hnodup').2
      by_cases hk : hd.1 = k
      · have hany : (hd :: tl).any (fun kv => decide (kv.1 = k)) = true := by
          simp [List.any_cons, hk]
        unfold dictInsert
        rw [if_pos hany]
        have hrest : (tl.map (fun kv => if kv.1 = k then (k, v) else kv)).filter
            (fun kv => decide (kv.1 = k)) = [] := by
          rw [List.filter_eq_nil_iff]
          intro a ha
          obtain ⟨kv0, hkv0, he⟩ := List.mem_map.mp ha
          have hk0 : kv0.1 ≠ k := by
            intro hcon
            exact hhd (hk ▸ hcon ▸ List.mem_map.mpr ⟨kv0, hkv0, rfl⟩)
          rw [if_neg hk0] at he
          subst he
          simp [hk0]
        simp only [List.map_cons, List.filter_cons, if_pos hk]
        simp [hrest]
      · by_cases hany : tl.any (fun kv => decide (kv.1 = k)) = true
        · have hany' : (hd :: tl).any (fun kv => decide (kv.1 = k)) = true := by
            simp [List.any_cons, hany]
          unfold dictInsert
          rw [if_pos hany']
          have htail := ih htl
          unfold dictInsert at htail
          rw [if_pos hany] at htail
          simp only [List.map_cons, List.filter_cons, if_neg hk]
          simpa [hk] using htail
        · have hmem : k ∉ (hd :: tl).map Prod.fst := by
            intro hmemk
            obtain ⟨kv0, hkv0, he⟩ := List.mem_map.mp hmemk
            rcases List.mem_cons.mp hkv0 with h0 | h0
            · exact hk (h0 ▸ he)
            · apply hany
              rw [List.any_eq_true]
              exact ⟨kv0, h0, by simp [he]⟩
          have hany' : ¬ (hd :: tl).any (fun kv => decide (kv.1 = k)) = true := by
            intro hcon
            rw [List.any_eq_true] at hcon
            obtain ⟨kv0, hkv0, he⟩ := hcon
            exact hmem (List.mem_map.mpr ⟨kv0, hkv0, by simpa using he⟩)
          unfold dictInsert
          rw [if_neg hany']
          have hnil : (hd :: tl).filter (fun kv => decide (kv.1 = k)) = [] := by
            rw [List.filter_eq_nil_iff]
            intro a ha hcon
            apply hany'
            rw [List.any_eq_true]
            exact ⟨a, ha, by simpa using hcon⟩
          rw [List.filter_append, hnil]
          simp

theorem dictInsert_addr_invariant (k : String) (v : BLEMessage)
    (es : List (String × BLEMessage)) (hv : v.device_address = k)
    (h : ∀ kv ∈ es, kv.1 = kv.2.device_address) :
    ∀ kv ∈ dictInsert es k v, kv.1 = kv.2.device_address := by
  intro kv hkv
  unfold dictInsert at hkv
  by_cases hany : es.any (fun x => decide (x.1 = k)) = true
  · rw [if_pos hany] at hkv
    obtain ⟨kv0, hkv0, he⟩ := List.mem_map.mp hkv
    by_cases hk : kv0.1 = k
    · rw [if_pos hk] at he
      subst he
      simp [hv]
    · rw [if_neg hk] at he
      subst he
      exact h kv0 hkv0
  · rw [if_neg hany] at hkv
    rcases List.mem_append.mp hkv with h1 | h2
    · exact h kv h1
    · have : kv = (k, v) := by simpa using h2
      subst this
      simp [hv]

theorem filter_addr_map_snd (a : String) (es : List (String × BLEMessage))
    (h : ∀ kv ∈ es, kv.1 = kv.2.device_address) :
    (es.map Prod.snd).filter (fun m => decide (m.device_address = a)) =
      (es.filter (fun kv => decide (kv.1 = a))).map Prod.snd := by
  induction es with
  | nil => rfl
  | cons hd tl ih =>
      have hhd := h hd (by simp)
      have ihtl := ih (fun kv hkv => h kv (by simp [hkv]))
      simp only [List.map_cons, List.filter_cons]
      rw [← hhd]
      by_cases hk : hd.1 = a
      · simp [hk, ihtl]
      · simp [hk, ihtl]

/-- C4: in throttled-windowed mode (throttle on, interval positive), two
adds with the same source address before a drain leave exactly one event for
that address and the next drain returns it with the later add's fields; in
every other mode both adds append and both events survive to the next
drain. -/
theorem buffer_add_same_address (b : MessageBuffer) (m1 m2 : BLEMessage) (now : ℚ)
    (haddr : m1.device_address = m2.device_address) :
    (∀ es, b.throttle_control = true → 0 < b.publish_interval_sec →
      b.buffer = BufferStore.dict es →
      (es.map Prod.fst).Nodup →
      (∀ kv ∈ es, kv.1 = kv.2.device_address) →
      (((b.add_message m1).add_message m2).get_messages now).1.filter
        (fun m => decide (m.device_address = m2.device_address)) = [m2]) ∧
    (∀ ms, ¬ (b.throttle_control = true ∧ 0 < b.publish_interval_sec) →
      b.buffer = BufferStore.list ms →
      (((b.add_message m1).add_message m2).get_messages now).1 = ms ++ [m1, m2]) := by
  constructor
  · intro es ht hp hbuf hnodup hinv
    have e3 : (((b.add_message m1).add_message m2).get_messages now).1 =
        (dictInsert (dictInsert es m1.device_address m1) m2.device_address m2).map
          Prod.snd := by
      simp [MessageBuffer.add_message, MessageBuffer.get_messages, ht, hp, hbuf]
    rw [e3]
    have hinv1 : ∀ kv ∈ dictInsert es m1.device_address m1, kv.1 = kv.2.device_address :=
      dictInsert_addr_invariant _ _ _ rfl hinv
    have hinv2 : ∀ kv ∈ dictInsert (dictInsert es m1.device_address m1)
        m2.device_address m2, kv.1 = kv.2.device_address :=
      dictInsert_addr_invariant _ _ _ rfl hinv1
    rw [filter_addr_map_snd _ _ hinv2]
    rw [dictInsert_filter_key m2.device_address m2 _
      (dictInsert_keys_nodup _ _ _ hnodup)]
    rfl
  · intro ms hcond hbuf
    have e3 : (((b.add_message m1).add_message m2).get_messages now).1 =
        ms ++ [m1] ++ [m2] := by
      simp [MessageBuffer.add_message, MessageBuffer.get_messages, hcond, hbuf]
    rw [e3]
    simp

/-- A pair of messages sharing a device address, for the buffer witnesses. -/
def msgA : BLEMessage :=
  { timestamp_ms := 1
    device_address := "AA:BB:CC:DD:EE:01"
    device_name := none
    rssi := -40
    manufacturer_data := []
    service_data := []
    service_uuids := []
    tx_power := none }

/-- Second message for the same device, with different fields. -/
def msgB : BLEMessage :=
  { timestamp_ms := 2
    device_address := "AA:BB:CC:DD:EE:01"
    device_name := some "beacon"
    rssi := -50
    manufacturer_data := []
    service_data := []
    service_uuids := []
    tx_power := some 4 }

/-- Witness for C4 on a freshly constructed throttled buffer. -/
theorem buffer_add_same_address_witness :
    ((((MessageBuffer.init 5 100 true 0).add_message msgA).add_message
        msgB).get_messages 7).1.filter
      (fun m => decide (m.device_address = msgB.device_address)) = [msgB] :=
  (buffer_add_same_address (MessageBuffer.init 5 100 true 0) msgA msgB 7 rfl).1
    [] rfl (by norm_num [MessageBuffer.init]) rfl List.nodup_nil (by simp)

/-- C5: with a zero interval, `should_flush` is true exactly when the buffer
is non-empty; with a positive interval, it is true exactly when the buffered
count has reached `max_buffer_size` (regardless of elapsed time), or the
elapsed time since the last flush has reached the interval and the buffer is
non-empty. -/
theorem should_flush_characterization (b : MessageBuffer) (now : ℚ) :
    (b.publish_interval_sec = 0 → (b.should_flush now = true ↔ 0 < b.size)) ∧
    (0 < b.publish_interval_sec →
      (b.should_flush now = true ↔
        b.max_buffer_size ≤ b.size ∨
          (b.publish_interval_sec ≤ now - b.last_flush_time ∧ 0 < b.size))) := by
  constructor
  · intro h
    simp [MessageBuffer.should_flush, h]
  · intro h
    have h0 : b.publish_interval_sec ≠ 0 := ne_of_gt h
    simp only [MessageBuffer.should_flush, if_neg h0]
    by_cases hmax : b.max_buffer_size ≤ b.size
    · simp [hmax]
    · by_cases htime : b.publish_interval_sec ≤ now - b.last_flush_time
      · simp [hmax, htime]
      · simp [hmax, htime]

/-- Witness for C5: immediate mode is flush-ready after one add, and an
empty immediate-mode buffer is not flush-ready. -/
theorem should_flush_characterization_witness :
    ((MessageBuffer.init 0 100 false 0).add_message msgA).should_flush 1 = true ∧
    (MessageBuffer.init 0 100 false 0).should_flush 1 = false := by
  constructor
  · exact ((should_flush_characterization
      ((MessageBuffer.init 0 100 false 0).add_message msgA) 1).1 rfl).mpr (by decide)
  · have hiff := (should_flush_characterization (MessageBuffer.init 0 100 false 0) 1).1 rfl
    rw [Bool.eq_false_iff]
    intro hcon
    exact absurd (hiff.mp hcon) (by decide)

theorem size_add_message_le (b : MessageBuffer) (m : BLEMessage) :
    (b.add_message m).size ≤ b.size + 1 := by
  unfold MessageBuffer.add_message MessageBuffer.size
  by_cases hcond : b.throttle_control = true ∧ 0 < b.publish_interval_sec
  · rw [if_pos hcond]
    cases hbuf : b.buffer with
    | dict es =>
        simp only
        unfold dictInsert
        by_cases hany : es.any (fun kv => decide (kv.1 = m.device_address)) = true
        · rw [if_pos hany]
          simp
        · rw [if_neg hany]
          simp
    | list ms => simp
  · rw [if_neg hcond]
    cases hbuf : b.buffer with
    | dict es => simp
    | list ms => simp

theorem size_foldl_add_le (l : List BLEMessage) :
    ∀ b : MessageBuffer, (l.foldl MessageBuffer.add_message b).size ≤ b.size + l.length := by
  induction l with
  | nil => intro b; simp
  | cons m ms ih =>
      intro b
      calc (ms.foldl MessageBuffer.add_message (b.add_message m)).size
          ≤ (b.add_message m).size + ms.length := ih (b.add_message m)
        _ ≤ b.size + 1 + ms.length := by
            have := size_add_message_le b m
            omega
        _ = b.size + (m :: ms).length := by simp; omega

theorem get_messages_length (b : MessageBuffer) (now : ℚ) :
    (b.get_messages now).1.length = b.size := by
  unfold MessageBuffer.get_messages MessageBuffer.size
  by_cases hcond : b.throttle_control = true ∧ 0 < b.publish_interval_sec
  · rw [if_pos hcond]
    cases b.buffer with
    | dict es => simp
    | list ms => simp
  · rw [if_neg hcond]
    cases b.buffer with
    | dict es => simp
    | list ms => simp

/-- C6: a drain returns exactly the pending events (no more than were added
since the previous drain), resets `last_flush_time` to now, and leaves the
buffer empty; draining an empty buffer returns the empty sequence and still
resets the timer baseline. -/
theorem drain_contract (b : MessageBuffer) (now : ℚ) (l : List BLEMessage) :
    (b.get_messages now).1.length = b.size ∧
    (b.get_messages now).2.size = 0 ∧
    (b.get_messages now).2.last_flush_time = now ∧
    (b.size = 0 → (b.get_messages now).1 = []) ∧
    (b.size = 0 →
      ((l.foldl MessageBuffer.add_message b).get_messages now).1.length ≤ l.length) := by
  refine ⟨get_messages_length b now, ?_, ?_, ?_, ?_⟩
  · unfold MessageBuffer.get_messages MessageBuffer.size
    by_cases hcond : b.throttle_control = true ∧ 0 < b.publish_interval_sec
    · rw [if_pos hcond]
      cases b.buffer with
      | dict es => simp
      | list ms => simp
    · rw [if_neg hcond]
      cases b.buffer with
      | dict es => simp
      | list ms => simp
  · unfold MessageBuffer.get_messages
    by_cases hcond : b.throttle_control = true ∧ 0 < b.publish_interval_sec
    · rw [if_pos hcond]
      cases b.buffer with
      | dict es => simp
      | list ms => simp
    · rw [if_neg hcond]
      cases b.buffer with
      | dict es => simp
      | list ms => simp
  · intro hsize
    have := get_messages_length b now
    rw [hsize] at this
    exact List.length_eq_zero.mp this
  · intro hsize
    rw [get_messages_length]
    have := size_foldl_add_le l b
    omega

/-- Witness for C6 on a drained non-empty immediate-mode buffer. -/
theorem drain_contract_witness :
    (((MessageBuffer.init 0 10 false 0).add_message msgA).get_messages 3).1.length =
      ((MessageBuffer.init 0 10 false 0).add_message msgA).size ∧
    (((MessageBuffer.init 0 10 false 0).add_message msgA).get_messages 3).2.size = 0 ∧
    (((MessageBuffer.init 0 10 false 0).add_message msgA).get_messages 3).2.last_flush_time
      = 3 ∧
    ((MessageBuffer.init 0 10 false 0).get_messages 3).1 = [] := by
  have h := drain_contract ((MessageBuffer.init 0 10 false 0).add_message msgA) 3 []
  have h0 := drain_contract (MessageBuffer.init 0 10 false 0) 3 []
  exact ⟨h.1, h.2.1, h.2.2.1, h0.2.2.2.1 rfl⟩

theorem foldl_add_list_mode (l : List BLEMessage) :
    ∀ (b : MessageBuffer) (ms : List BLEMessage),
      ¬ (b.throttle_control = true ∧ 0 < b.publish_interval_sec) →
      b.buffer = BufferStore.list ms →
      (l.foldl MessageBuffer.add_message b).buffer = BufferStore.list (ms ++ l) ∧
      (l.foldl MessageBuffer.add_message b).throttle_control = b.throttle_control ∧
      (l.foldl MessageBuffer.add_message b).publish_interval_sec =
        b.publish_interval_sec := by
  induction l with
  | nil =>
      intro b ms hcond hbuf
      refine ⟨?_, rfl, rfl⟩
      simpa using hbuf
  | cons m rest ih =>
      intro b ms hcond hbuf
      have e1 : b.add_message m = { b with buffer := BufferStore.list (ms ++ [m]) } := by
        simp [MessageBuffer.add_message, hcond, hbuf]
      have hstep := ih (b.add_message m) (ms ++ [m])
        (by rw [e1]; exact hcond) (by rw [e1])
      simpa [List.foldl_cons, List.append_assoc, e1] using hstep

/-- C10: in non-throttled mode (throttle off, or interval zero), the drain
after a sequence of adds returns exactly those events in arrival order, with
no duplication. -/
theorem fifo_drain (b : MessageBuffer) (now : ℚ) (l : List BLEMessage)
    (hcond : ¬ (b.throttle_control = true ∧ 0 < b.publish_interval_sec))
    (hbuf : b.buffer = BufferStore.list []) :
    ((l.foldl MessageBuffer.add_message b).get_messages now).1 = l := by
  obtain ⟨hb, ht, hp⟩ := foldl_add_list_mode l b [] hcond hbuf
  have hcond' : ¬ ((l.foldl MessageBuffer.add_message b).throttle_control = true ∧
      0 < (l.foldl MessageBuffer.add_message b).publish_interval_sec) := by
    rw [ht, hp]
    exact hcond
  unfold MessageBuffer.get_messages
  rw [if_neg hcond', hb]
  simp

/-- Witness for C10: two same-address adds in immediate mode both survive,
in order. -/
theorem fifo_drain_witness :
    ((([msgA, msgB]).foldl MessageBuffer.add_message
      (MessageBuffer.init 0 100 true 0)).get_messages 2).1 = [msgA, msgB] :=
  fifo_drain (MessageBuffer.init 0 100 true 0) 2 [msgA, msgB]
    (by norm_num [MessageBuffer.init]) rfl

theorem setTruthy_some {α : Type} (l : List α) (h : l ≠ []) :
    setTruthy (some l) = true := by
  cases l with
  | nil => exact absurd rfl h
  | cons a as => rfl

theorem setTruthy_false_iff_none {α : Type} (o : Option (List α))
    (h : ∀ l, o = some l → l ≠ []) : setTruthy o = false ↔ o = none := by
  cases o with
  | none => simp [setTruthy]
  | some l => simp [setTruthy_some l (h l rfl)]

theorem mem_upper_list (l : List String) (a : String) (h : ∀ s ∈ l, strUpper s = s) :
    strUpper a ∈ l ↔ ∃ s ∈ l, strUpper s = strUpper a := by
  constructor
  · intro hm
    exact ⟨strUpper a, hm, by rw [h _ hm]⟩
  · rintro ⟨s, hs, he⟩
    have hss := h s hs
    rw [← hss, he] at hs
    exact hs

theorem name_criterion_iff (l : List String) (o : Option String) (h : "" ∉ l) :
    (nameTruthy o = true ∧ o.getD "" ∈ l) ↔ ∃ n, o = some n ∧ n ∈ l := by
  cases o with
  | none => simp [nameTruthy]
  | some n =>
      by_cases hn : n = ""
      · subst hn
        simp [nameTruthy, h]
      · simp [nameTruthy, hn]

theorem ne_nil_and_exists_iff {α : Type} (data : List α) (P : α → Prop) :
    (data ≠ [] ∧ ∃ x ∈ data, P x) ↔ ∃ x ∈ data, P x := by
  constructor
  · exact And.right
  · rintro ⟨x, hx, hp⟩
    refine ⟨?_, ⟨x, hx, hp⟩⟩
    rintro rfl
    exact absurd hx (List.not_mem_nil x)

theorem mac_cond_iff (o : Option (List String)) (a : String)
    (h : ∀ l, o = some l → l ≠ [] ∧ ∀ s ∈ l, strUpper s = s) :
    (setTruthy o = true ∧ strUpper a ∈ o.getD []) ↔
      ∃ l, o = some l ∧ ∃ s ∈ l, strUpper s = strUpper a := by
  cases o with
  | none => simp [setTruthy]
  | some l =>
      obtain ⟨hne, hup⟩ := h l rfl
      simp only [setTruthy_some l hne, Option.getD_some, true_and]
      rw [mem_upper_list l a hup]
      simp

theorem name_cond_iff (o : Option (List String)) (dn : Option String)
    (h : ∀ l, o = some l → l ≠ [] ∧ "" ∉ l) :
    (setTruthy o = true ∧ nameTruthy dn = true ∧ dn.getD "" ∈ o.getD []) ↔
      ∃ l n, o = some l ∧ dn = some n ∧ n ∈ l := by
  cases o with
  | none => simp [setTruthy]
  | some l =>
      obtain ⟨hne, hns⟩ := h l rfl
      simp only [setTruthy_some l hne, Option.getD_some, true_and]
      rw [name_criterion_iff l dn hns]
      simp

theorem mid_cond_iff (o : Option (List Nat)) (data : List (Nat × List Nat))
    (h : ∀ l, o = some l → l ≠ []) :
    (setTruthy o = true ∧ data ≠ [] ∧ ∃ kv ∈ data, kv.1 ∈ o.getD []) ↔
      ∃ l, o = some l ∧ ∃ kv ∈ data, kv.1 ∈ l := by
  cases o with
  | none => simp [setTruthy]
  | some l =>
      simp only [setTruthy_some l (h l rfl), Option.getD_some, true_and]
      rw [ne_nil_and_exists_iff data (fun kv => kv.1 ∈ l)]
      simp

theorem su_cond_iff (o : Option (List String)) (us : List String)
    (h : ∀ l, o = some l → l ≠ []) :
    (setTruthy o = true ∧ us ≠ [] ∧ ∃ u ∈ us, u ∈ o.getD []) ↔
      ∃ l, o = some l ∧ ∃ u ∈ us, u ∈ l := by
  cases o with
  | none => simp [setTruthy]
  | some l =>
      simp only [setTruthy_some l (h l rfl), Option.getD_some, true_and]
      rw [ne_nil_and_exists_iff us (fun u => u ∈ l)]
      simp

theorem should_accept_iff (f : PayloadFilter) (d : BLEDevice) (adv : AdvertisementData) :
    f.should_accept d adv = true ↔
      (setTruthy f.mac_whitelist = false ∧ setTruthy f.name_whitelist = false ∧
        setTruthy f.manufacturer_id_whitelist = false ∧
        setTruthy f.service_uuid_whitelist = false) ∨
      (setTruthy f.mac_whitelist = true ∧ strUpper d.address ∈ f.mac_whitelist.getD []) ∨
      (setTruthy f.name_whitelist = true ∧ nameTruthy d.name = true ∧
        d.name.getD "" ∈ f.name_whitelist.getD []) ∨
      (setTruthy f.manufacturer_id_whitelist = true ∧ adv.manufacturer_data ≠ [] ∧
        ∃ kv ∈ adv.manufacturer_data, kv.1 ∈ f.manufacturer_id_whitelist.getD []) ∨
      (setTruthy f.service_uuid_whitelist = true ∧ adv.service_uuids ≠ [] ∧
        ∃ u ∈ adv.service_uuids, u ∈ f.service_uuid_whitelist.getD []) := by
  unfold PayloadFilter.should_accept
  split_ifs with h1 h2 h3 h4 h5
  · exact ⟨fun _ => Or.inl h1, fun _ => rfl⟩
  · exact ⟨fun _ => Or.inr (Or.inl h2), fun _ => rfl⟩
  · exact ⟨fun _ => Or.inr (Or.inr (Or.inl h3)), fun _ => rfl⟩
  · exact ⟨fun _ => Or.inr (Or.inr (Or.inr (Or.inl h4))), fun _ => rfl⟩
  · exact ⟨fun _ => Or.inr (Or.inr (Or.inr (Or.inr h5))), fun _ => rfl⟩
  · constructor
    · intro hcon
      exact absurd hcon (by simp)
    · rintro (h | h | h | h | h)
      · exact absurd h h1
      · exact absurd h h2
      · exact absurd h h3
      · exact absurd h h4
      · exact absurd h h5

/-- C7: with no criterion set configured the filter accepts every input;
with at least one criterion set configured it accepts exactly when the
upper-cased source address matches the address set, or the source name is
present and in the name set, or some vendor id of the event is in the
vendor-id set, or some advertised service id is in the service-id set; in
particular a filter with only a vendor-id set rejects every event whose
vendor-data map is disjoint from it. -/
theorem should_accept_characterization (f : PayloadFilter) (d : BLEDevice)
    (adv : AdvertisementData)
    (hmac : ∀ l, f.mac_whitelist = some l → l ≠ [] ∧ ∀ s ∈ l, strUpper s = s)
    (hname : ∀ l, f.name_whitelist = some l → l ≠ [] ∧ "" ∉ l)
    (hmid : ∀ l, f.manufacturer_id_whitelist = some l → l ≠ [])
    (hsu : ∀ l, f.service_uuid_whitelist = some l → l ≠ []) :
    (f.mac_whitelist = none ∧ f.name_whitelist = none ∧
        f.manufacturer_id_whitelist = none ∧ f.service_uuid_whitelist = none →
      f.should_accept d adv = true) ∧
    (¬ (f.mac_whitelist = none ∧ f.name_whitelist = none ∧
        f.manufacturer_id_whitelist = none ∧ f.service_uuid_whitelist = none) →
      (f.should_accept d adv = true ↔
        (∃ l, f.mac_whitelist = some l ∧ ∃ s ∈ l, strUpper s = strUpper d.address) ∨
        (∃ l n, f.name_whitelist = some l ∧ d.name = some n ∧ n ∈ l) ∨
        (∃ l, f.manufacturer_id_whitelist = some l ∧
          ∃ kv ∈ adv.manufacturer_data, kv.1 ∈ l) ∨
        (∃ l, f.service_uuid_whitelist = some l ∧ ∃ u ∈ adv.service_uuids, u ∈ l))) ∧
    (∀ li, f.mac_whitelist = none → f.name_whitelist = none →
      f.service_uuid_whitelist = none → f.manufacturer_id_whitelist = some li →
      (∀ kv ∈ adv.manufacturer_data, kv.1 ∉ li) → f.should_accept d adv = false) := by
  have hiff := should_accept_iff f d adv
  have hA := mac_cond_iff f.mac_whitelist d.address hmac
  have hB := name_cond_iff f.name_whitelist d.name hname
  have hC := mid_cond_iff f.manufacturer_id_whitelist adv.manufacturer_data hmid
  have hD := su_cond_iff f.service_uuid_whitelist adv.service_uuids hsu
  have hMn := setTruthy_false_iff_none f.mac_whitelist (fun l hl => (hmac l hl).1)
  have hNn := setTruthy_false_iff_none f.name_whitelist (fun l hl => (hname l hl).1)
  have hIn := setTruthy_false_iff_none f.manufacturer_id_whitelist hmid
  have hSn := setTruthy_false_iff_none f.service_uuid_whitelist hsu
  refine ⟨?_, ?_, ?_⟩
  · rintro ⟨e1, e2, e3, e4⟩
    rw [hiff]
    exact Or.inl ⟨hMn.mpr e1, hNn.mpr e2, hIn.mpr e3, hSn.mpr e4⟩
  · intro hnot
    rw [hiff, hA, hB, hC, hD]
    constructor
    · rintro (⟨e1, e2, e3, e4⟩ | h | h | h | h)
      · exact absurd ⟨hMn.mp e1, hNn.mp e2, hIn.mp e3, hSn.mp e4⟩ hnot
      · exact Or.inl h
      · exact Or.inr (Or.inl h)
      · exact Or.inr (Or.inr (Or.inl h))
      · exact Or.inr (Or.inr (Or.inr h))
    · rintro (h | h | h | h)
      · exact Or.inr (Or.inl h)
      · exact Or.inr (Or.inr (Or.inl h))
      · exact Or.inr (Or.inr (Or.inr (Or.inl h)))
      · exact Or.inr (Or.inr (Or.inr (Or.inr h)))
  · intro li e1 e2 e3 e4 hdisj
    rw [Bool.eq_false_iff]
    intro hcon
    rw [hiff, hA, hB, hC, hD] at hcon
    rcases hcon with ⟨f1, _, f3, _⟩ | h | h | h | h
    · rw [hIn] at f3
      rw [f3] at e4
      exact Option.noConfusion e4
    · obtain ⟨l, hl, _⟩ := h
      rw [e1] at hl
      exact Option.noConfusion hl
    · obtain ⟨l, n, hl, _⟩ := h
      rw [e2] at hl
      exact Option.noConfusion hl
    · obtain ⟨l, hl, kv, hkv, hin⟩ := h
      rw [e4] at hl
      have : li = l := by injection hl
      exact hdisj kv hkv (this ▸ hin)
    · obtain ⟨l, hl, _⟩ := h
      rw [e3] at hl
      exact Option.noConfusion hl

/-- Witness for C7: the empty filter accepts, and a vendor-only filter
accepts a matching vendor id. -/
theorem should_accept_characterization_witness :
    PayloadFilter.should_accept
      { mac_whitelist := none, name_whitelist := none,
        manufacturer_id_whitelist := none, service_uuid_whitelist := none }
      { address := "AA:BB:CC:DD:EE:01", name := none }
      { manufacturer_data := [(76, [1, 2])], service_data := [], service_uuids := [] }
      = true ∧
    PayloadFilter.should_accept
      { mac_whitelist := none, name_whitelist := none,
        manufacturer_id_whitelist := some [76], service_uuid_whitelist := none }
      { address := "AA:BB:CC:DD:EE:01", name := none }
      { manufacturer_data := [(76, [1, 2])], service_data := [], service_uuids := [] }
      = true := by
  constructor
  · exact (should_accept_characterization _ _ _
      (by rintro l ⟨⟩) (by rintro l ⟨⟩) (by rintro l ⟨⟩) (by rintro l ⟨⟩)).1
      ⟨rfl, rfl, rfl, rfl⟩
  · refine ((should_accept_characterization _ _ _
      (by rintro l ⟨⟩) (by rintro l ⟨⟩) ?_ (by rintro l ⟨⟩)).2.1 ?_).mpr ?_
    · rintro l hl
      injection hl with h
      rw [← h]
      simp
    · rintro ⟨_, _, h3, _⟩
      exact Option.noConfusion h3
    · refine Or.inr (Or.inr (Or.inl ⟨[76], rfl, (76, [1, 2]), by simp, by simp⟩))

/-- A JSON value of the shapes the full-JSON record uses. -/
inductive JVal
  | jnull
  | jnat (n : Nat)
  | jint (n : Int)
  | jstr (s : String)
  | jstrObj (fields : List (String × String))
  | jstrArr (elems : List String)
deriving Repr, DecidableEq

/-- Compact rendering of a `JVal`, as `json.dumps` with `separators=(',', ':')`
renders it. -/
def renderJVal : JVal → String
  | JVal.jnull => "null"
  | JVal.jnat n => toString n
  | JVal.jint n => toString n
  | JVal.jstr s => jsonString s
  | JVal.jstrObj fs =>
      "\x7b" ++ String.intercalate ","
        (fs.map (fun kv => jsonString kv.1 ++ ":" ++ jsonString kv.2)) ++ "\x7d"
  | JVal.jstrArr es =>
      "[" ++ String.intercalate "," (es.map jsonString) ++ "]"

/-- Compact rendering of a JSON object with `JVal` values. -/
def renderJObj (fields : List (String × JVal)) : String :=
  "\x7b" ++ String.intercalate ","
    (fields.map (fun kv => jsonString kv.1 ++ ":" ++ renderJVal kv.2)) ++ "\x7d"

/-- Modelled from the spec's full-JSON clause: an object whose keys mirror
the event's fields in order, with byte sequences hex-encoded in lower case
and vendor-id keys rendered as decimal strings. -/
def fullJsonObject (m : BLEMessage) : List (String × JVal) :=
  [("timestamp_ms", JVal.jnat m.timestamp_ms),
   ("device_address", JVal.jstr m.device_address),
   ("device_name", match m.device_name with
     | none => JVal.jnull
     | some n => JVal.jstr n),
   ("rssi", JVal.jint m.rssi),
   ("manufacturer_data", JVal.jstrObj
     (m.manufacturer_data.map (fun kv => (toString kv.1, bytesToHexLower kv.2)))),
   ("service_data", JVal.jstrObj
     (m.service_data.map (fun kv => (kv.1, bytesToHexLower kv.2)))),
   ("service_uuids", JVal.jstrArr m.service_uuids),
   ("tx_power", match m.tx_power with
     | none => JVal.jnull
     | some p => JVal.jint p)]

/-- C8: `to_json` renders the compact JSON object whose keys mirror the
event's fields with lower-case hex byte values and decimal-string vendor-id
keys; on shutdown the gateway drains unconditionally (bypassing
`should_flush`, so also when `should_flush` is false it still empties and
publishes the whole buffer) and renders each drained event with `to_json`,
the full-JSON format, not the CSV envelope. -/
theorem to_json_full_format (m : BLEMessage) (b : MessageBuffer) (now : ℚ) :
    to_json m = renderJObj (fullJsonObject m) ∧
    (shutdown_flush b now).1 = ((b.get_messages now).1).map to_json ∧
    (b.should_flush now = false →
      (shutdown_flush b now).1.length = b.size ∧ (shutdown_flush b now).2.size = 0) := by
  refine ⟨?_, rfl, ?_⟩
  · have k1 : jsonString "timestamp_ms" = "\"timestamp_ms\"" := rfl
    have k2 : jsonString "device_address" = "\"device_address\"" := rfl
    have k3 : jsonString "device_name" = "\"device_name\"" := rfl
    have k4 : jsonString "rssi" = "\"rssi\"" := rfl
    have k5 : jsonString "manufacturer_data" = "\"manufacturer_data\"" := rfl
    have k6 : jsonString "service_data" = "\"service_data\"" := rfl
    have k7 : jsonString "service_uuids" = "\"service_uuids\"" := rfl
    have k8 : jsonString "tx_power" = "\"tx_power\"" := rfl
    unfold to_json renderJObj fullJsonObject
    cases m.device_name <;> cases m.tx_power <;>
      · simp only [List.map_cons, List.map_nil, renderJVal, List.map_map,
          Function.comp_def, k1, k2, k3, k4, k5, k6, k7, k8]
        simp only [String.intercalate, String.intercalate.go]
        apply String.ext
        simp
  · intro _
    constructor
    · unfold shutdown_flush
      rw [List.length_map]
      exact get_messages_length b now
    · unfold shutdown_flush
      exact (drain_contract b now []).2.1

/-- An event exercising every field of the full-JSON format. -/
def jsonEvent : BLEMessage :=
  { timestamp_ms := 1700000000123
    device_address := "AA:BB:CC:DD:EE:FF"
    device_name := some "sensor"
    rssi := -67
    manufacturer_data := [(76, [0xAB, 0xCD])]
    service_data := [("180f", [0x5F])]
    service_uuids := ["180f"]
    tx_power := some (-4) }

/-- Witness for C8: the concrete full-JSON rendering of `jsonEvent`, the
shutdown payloads of a one-event buffer, and the shutdown drain of an empty
buffer that is not flush-ready. -/
theorem to_json_full_format_witness :
    to_json jsonEvent = renderJObj (fullJsonObject jsonEvent) ∧
    (shutdown_flush ((MessageBuffer.init 0 100 false 0).add_message msgA) 1).1 =
      [to_json msgA] ∧
    (shutdown_flush (MessageBuffer.init 0 100 false 0) 1).1.length = 0 := by
  have h := to_json_full_format jsonEvent
    ((MessageBuffer.init 0 100 false 0).add_message msgA) 1
  have h0 := to_json_full_format jsonEvent (MessageBuffer.init 0 100 false 0) 1
  refine ⟨h.1, ?_, ?_⟩
  · rw [h.2.1]
    rfl
  · rw [(h0.2.2 (by rfl)).1]
    rfl

/-- Spec-side reading of "a positive integer": an integer value at least 1
(a boolean is not an integer). -/
def isPositiveIntSpec : PyValue → Bool
  | PyValue.int n => decide (1 ≤ n)
  | _ => false

/-- Spec-side reading of "numeric": an int or float value (not a boolean). -/
def isNumericSpec : PyValue → Bool
  | PyValue.int _ => true
  | PyValue.float _ => true
  | _ => false

/-- A configuration whose `max_buffer_size` is the boolean `true` and which
is otherwise unremarkable. -/
def boolSizeConfig : List (String × PyValue) :=
  [("max_buffer_size", PyValue.bool true)]

/-- Counterexample to C9: `max_buffer_size: true` is not a positive integer,
yet the policy checks pass it — Python's `bool` is a subclass of `int`, so
`isinstance(True, int)` holds and `True` compares as 1, slipping through the
`max_buffer_size` (and `publish_interval_sec`) validations. -/
theorem config_policy_counterexample :
    pyGet boolSizeConfig "max_buffer_size" = some (PyValue.bool true) ∧
    isPositiveIntSpec (PyValue.bool true) = false ∧
    policy_value_checks boolSizeConfig = Except.ok () := by
  refine ⟨rfl, rfl, rfl⟩

theorem exceptBind_ok_iff (a : Except String Unit) (b : Unit → Except String Unit) :
    (a >>= b) = Except.ok () ↔ a = Except.ok () ∧ b () = Except.ok () := by
  cases a with
  | error e => simp [Bind.bind, Except.bind]
  | ok u => cases u; simp [Bind.bind, Except.bind]

theorem policy_value_checks_eq_ok (config : List (String × PyValue)) :
    policy_value_checks config = Except.ok () ↔
      (check_interval config = Except.ok () ∧ check_size config = Except.ok () ∧
        check_throttle config = Except.ok ()) := by
  unfold policy_value_checks
  rw [exceptBind_ok_iff, exceptBind_ok_iff]

theorem check_interval_ok (config : List (String × PyValue)) :
    check_interval config = Except.ok () ↔
      ∀ v, pyGet config "publish_interval_sec" = some v →
        isNumericPy v = true ∧ 0 ≤ numValPy v := by
  unfold check_interval
  cases h : pyGet config "publish_interval_sec" with
  | none => simp
  | some v =>
      dsimp only
      split_ifs with hc
      · constructor
        · intro hcon
          exact hcon.elim
        · intro hall
          obtain ⟨hn, hge⟩ := hall v rfl
          rcases hc with hc | hc
          · rw [hn] at hc
            exact Bool.noConfusion hc
          · exact absurd hge (not_le.mpr hc)
      · push_neg at hc
        constructor
        · intro _ w hw
          injection hw with hw
          subst hw
          exact ⟨Bool.not_eq_false _ |>.mp hc.1, hc.2⟩
        · intro _
          rfl

theorem check_size_ok (config : List (String × PyValue)) :
    check_size config = Except.ok () ↔
      ∀ v, pyGet config "max_buffer_size" = some v →
        isIntPy v = true ∧ 1 ≤ numValPy v := by
  unfold check_size
  cases h : pyGet config "max_buffer_size" with
  | none => simp
  | some v =>
      dsimp only
      split_ifs with hc
      · constructor
        · intro hcon
          exact hcon.elim
        · intro hall
          obtain ⟨hn, hge⟩ := hall v rfl
          rcases hc with hc | hc
          · rw [hn] at hc
            exact Bool.noConfusion hc
          · exact absurd hge (not_le.mpr hc)
      · push_neg at hc
        constructor
        · intro _ w hw
          injection hw with hw
          subst hw
          exact ⟨Bool.not_eq_false _ |>.mp hc.1, hc.2⟩
        · intro _
          rfl

theorem check_throttle_ok (config : List (String × PyValue)) :
    check_throttle config = Except.ok () ↔
      ∀ v, pyGet config "throttle_control" = some v → isBoolPy v = true := by
  unfold check_throttle
  cases h : pyGet config "throttle_control" with
  | none => simp
  | some v =>
      dsimp only
      split_ifs with hc
      · constructor
        · intro hcon
          exact hcon.elim
        · intro hall
          rw [hall v rfl] at hc
          exact Bool.noConfusion hc
      · constructor
        · intro _ w hw
          injection hw with hw
          subst hw
          exact Bool.not_eq_false _ |>.mp hc
        · intro _
          rfl

/-- C9 (amended): the policy checks pass exactly when each of the three keys
is absent or valid under Python semantics, where booleans count as integers
(`True` = 1, `False` = 0): `publish_interval_sec` must be an int, float or
bool with non-negative value, `max_buffer_size` an int or bool with value at
least 1, and `throttle_control` a bool; any other present value raises and
the process does not start. -/
theorem config_policy_checks_amended (config : List (String × PyValue)) :
    policy_value_checks config = Except.ok () ↔
      (∀ v, pyGet config "publish_interval_sec" = some v →
        isNumericPy v = true ∧ 0 ≤ numValPy v) ∧
      (∀ v, pyGet config "max_buffer_size" = some v →
        isIntPy v = true ∧ 1 ≤ numValPy v) ∧
      (∀ v, pyGet config "throttle_control" = some v → isBoolPy v = true) := by
  rw [policy_value_checks_eq_ok config, check_interval_ok config, check_size_ok config,
    check_throttle_ok config]

/-- Witness for the amended C9: a configuration with a float interval, an
integer batch size and a boolean throttle flag passes the policy checks. -/
theorem config_policy_checks_amended_witness :
    policy_value_checks
      [("publish_interval_sec", PyValue.float 2), ("max_buffer_size", PyValue.int 50),
       ("throttle_control", PyValue.bool true)] = Except.ok () := by
  refine (config_policy_checks_amended _).mpr ⟨?_, ?_, ?_⟩
  · intro v hv
    injection hv with hv
    subst hv
    exact ⟨rfl, by norm_num [numValPy]⟩
  · intro v hv
    injection hv with hv
    subst hv
    exact ⟨rfl, by norm_num [numValPy]⟩
  · intro v hv
    injection hv with hv
    subst hv
    rfl

end BLEGW
